import Mathlib

/-!
Verification of the mrna_petrinet compilers.

The repository compiles mRNA chain descriptions into Petri nets.  The file
`src/mrna_petrinet/mrna2pnet_adapters/mrna_ribo2pnet.py` contains the resource
extension `add_ribosome_functionality`, which receives the base network (a
Python dict with `places` and `transitions`) together with the full json input
and adds a `p_free_ribosomes` place plus ribosome consume/produce arcs on each
chain's first and last transitions.

Python dicts are embedded as association lists `List (String × α)`: updating an
existing key replaces its binding in place (keeping its position), and a new
key is appended at the end, exactly as a Python dict behaves.  Integer values
are `Int` (Python ints are unbounded and may be negative).  A transition dict
may lack its `consume` or `produce` key, hence those fields are `Option`.
-/

/-- Lookup in an association list, mirroring Python `d[k]` / `k in d`. -/
def alookup (k : String) : List (String × α) → Option α
  | [] => none
  | q :: l => if q.1 = k then some q.2 else alookup k l

/-- Update-or-append, mirroring Python `d[k] = v`: the first binding of `k`
is replaced keeping its position, otherwise `(k, v)` is appended. -/
def aupsert (k : String) (v : α) : List (String × α) → List (String × α)
  | [] => [(k, v)]
  | q :: l => if q.1 = k then (k, v) :: l else q :: aupsert k v l

/-- A transition dict: its `consume` and `produce` keys may be absent. -/
structure Transition where
  consume : Option (List (String × Int))
  produce : Option (List (String × Int))
deriving DecidableEq, Repr

/-- The network dict handed around by the adapters: `places` maps place name
to initial marking, `transitions` maps transition name to its dict. -/
structure Network where
  places : List (String × Int)
  transitions : List (String × Transition)
deriving DecidableEq, Repr

/-- One entry of the json input's `chains` list. -/
structure ChainObj where
  name : String
  sequence : String
  polipeptide_name : String
deriving DecidableEq, Repr

/-- The `ribosome_parameters` sub-dict; its `initial_ribosomes` key may be
absent. -/
structure RibosomeParams where
  initial_ribosomes : Option Int
deriving DecidableEq, Repr

/-- The `simulation_parameters` sub-dict (only the fields the compilers read). -/
structure SimulationParameters where
  initial_chains_marking : Int
  ribosome_parameters : Option RibosomeParams
deriving DecidableEq, Repr

/-- The full json input. -/
structure JsonInput where
  chains : List ChainObj
  simulation_parameters : SimulationParameters
deriving DecidableEq, Repr

/-- Python `simulation_parameters.get("ribosome_parameters", dict()).get(x, 50)`
with `x = "initial_ribosomes"`. -/
def getInitialRibosomes (input : JsonInput) : Int :=
  match input.simulation_parameters.ribosome_parameters with
  | none => 50
  | some rp => rp.initial_ribosomes.getD 50

/-- Python string `t_` + chain name + `_t1` — the first transition name probed
by the code. -/
def firstTransitionName (c : ChainObj) : String :=
  "t_" ++ c.name ++ "_t1"

/-- Python string `t_` + chain name + `_t` + `len(chain)` — the last transition
name probed by the code (`chain` is the chain's `sequence` string). -/
def lastTransitionName (c : ChainObj) : String :=
  "t_" ++ c.name ++ "_t" ++ toString c.sequence.length

/-- Python `transitions_dict[first]['consume']['p_free_ribosomes'] = 1`,
creating the `consume` dict when absent. -/
def setConsumeRibo (t : Transition) : Transition :=
  { t with consume := some (aupsert "p_free_ribosomes" 1 (t.consume.getD [])) }

/-- Python `transitions_dict[last]['produce']['p_free_ribosomes'] = 1`,
creating the `produce` dict when absent. -/
def setProduceRibo (t : Transition) : Transition :=
  { t with produce := some (aupsert "p_free_ribosomes" 1 (t.produce.getD [])) }

/-- Python `if name in transitions_dict:` guard — applies `f` to the transition
bound to `k` when present, otherwise leaves the dict alone. -/
def applyAt (k : String) (f : Transition → Transition)
    (trs : List (String × Transition)) : List (String × Transition) :=
  match alookup k trs with
  | none => trs
  | some t => aupsert k (f t) trs

/-- The body of the per-chain loop of `add_ribosome_functionality`: the first
transition (when present) gets `consume['p_free_ribosomes'] = 1`, then the last
transition (when present) gets `produce['p_free_ribosomes'] = 1`. -/
def addChainRibo (trs : List (String × Transition)) (c : ChainObj) :
    List (String × Transition) :=
  applyAt (lastTransitionName c) setProduceRibo
    (applyAt (firstTransitionName c) setConsumeRibo trs)

/-- The function `add_ribosome_functionality` from `mrna_ribo2pnet.py`: sets
`places_dict['p_free_ribosomes']` to the configured (or default 50) ribosome
count, then runs the per-chain loop over `json_input["chains"]`. -/
def add_ribosome_functionality (network : Network) (input : JsonInput) : Network :=
  { places := aupsert "p_free_ribosomes" (getInitialRibosomes input) network.places,
    transitions := input.chains.foldl addChainRibo network.transitions }

/-! ### Association-list lemmas -/

theorem alookup_aupsert_self (k : String) (v : α) (l : List (String × α)) :
    alookup k (aupsert k v l) = some v := by
  induction l with
  | nil => simp [alookup, aupsert]
  | cons q l ih =>
    by_cases h : q.1 = k
    · simp [alookup, aupsert, h]
    · simp [alookup, aupsert, h, ih]

theorem alookup_aupsert_ne (n k : String) (v : α) (l : List (String × α))
    (h : n ≠ k) : alookup n (aupsert k v l) = alookup n l := by
  have hkn : ¬(k = n) := fun hk => h hk.symm
  induction l with
  | nil => simp [alookup, aupsert, hkn]
  | cons q l ih =>
    by_cases hq : q.1 = k
    · simp [alookup, aupsert, hq, hkn]
    · simp [alookup, aupsert, hq, ih]

theorem aupsert_eq_of_alookup (k : String) (v : α) (l : List (String × α))
    (h : alookup k l = some v) : aupsert k v l = l := by
  induction l with
  | nil => simp [alookup] at h
  | cons q l ih =>
    cases q with
    | mk qk qv =>
      by_cases hq : qk = k
      · subst hq
        simp [alookup] at h
        simp [aupsert, h]
      · simp [alookup, hq] at h
        simp [aupsert, hq, ih h]

theorem mem_aupsert (p : String × α) (k : String) (v : α) (l : List (String × α))
    (h : p ∈ aupsert k v l) : p = (k, v) ∨ p ∈ l := by
  induction l with
  | nil => simpa [aupsert] using h
  | cons q l ih =>
    by_cases hq : q.1 = k
    · simp [aupsert, hq] at h
      rcases h with h | h
      · exact Or.inl h
      · exact Or.inr (List.mem_cons_of_mem q h)
    · simp [aupsert, hq] at h
      rcases h with h | h
      · exact Or.inr (by simp [h])
      · rcases ih h with h2 | h2
        · exact Or.inl h2
        · exact Or.inr (List.mem_cons_of_mem q h2)

theorem alookup_mem (k : String) (v : α) (l : List (String × α))
    (h : alookup k l = some v) : (k, v) ∈ l := by
  induction l with
  | nil => simp [alookup] at h
  | cons q l ih =>
    cases q with
    | mk qk qv =>
      by_cases hq : qk = k
      · subst hq
        simp [alookup] at h
        simp [h]
      · simp [alookup, hq] at h
        exact List.mem_cons_of_mem _ (ih h)

theorem aupsert_of_alookup_none (k : String) (v : α) (l : List (String × α))
    (h : alookup k l = none) : aupsert k v l = l ++ [(k, v)] := by
  induction l with
  | nil => simp [aupsert]
  | cons q l ih =>
    by_cases hq : q.1 = k
    · simp [alookup, hq] at h
    · simp [alookup, hq] at h
      simp [aupsert, hq, ih h]

theorem isSome_alookup_aupsert (n k : String) (v : α) (l : List (String × α))
    (h : (alookup n l).isSome = true) :
    (alookup n (aupsert k v l)).isSome = true := by
  by_cases hn : n = k
  · subst hn
    simp [alookup_aupsert_self]
  · rwa [alookup_aupsert_ne n k v l hn]

/-! ### Lemmas about the conditional per-transition update `applyAt` -/

theorem applyAt_lookup_ne (n k : String) (f : Transition → Transition)
    (trs : List (String × Transition)) (h : n ≠ k) :
    alookup n (applyAt k f trs) = alookup n trs := by
  unfold applyAt
  cases alookup k trs with
  | none => rfl
  | some t => exact alookup_aupsert_ne n k (f t) trs h

theorem applyAt_lookup_self (k : String) (f : Transition → Transition)
    (trs : List (String × Transition)) (t : Transition)
    (h : alookup k trs = some t) :
    alookup k (applyAt k f trs) = some (f t) := by
  unfold applyAt
  rw [h]
  exact alookup_aupsert_self k (f t) trs

theorem applyAt_isSome (n k : String) (f : Transition → Transition)
    (trs : List (String × Transition))
    (h : (alookup n trs).isSome = true) :
    (alookup n (applyAt k f trs)).isSome = true := by
  unfold applyAt
  cases alookup k trs with
  | none => exact h
  | some t => exact isSome_alookup_aupsert n k (f t) trs h

theorem mem_applyAt (p : String × Transition) (k : String)
    (f : Transition → Transition) (trs : List (String × Transition))
    (h : p ∈ applyAt k f trs) :
    p ∈ trs ∨ ∃ t, alookup k trs = some t ∧ p = (k, f t) := by
  unfold applyAt at h
  cases ht : alookup k trs with
  | none =>
    rw [ht] at h
    exact Or.inl h
  | some t =>
    rw [ht] at h
    rcases mem_aupsert p k (f t) trs h with h2 | h2
    · exact Or.inr ⟨t, rfl, h2⟩
    · exact Or.inl h2

/-! ### The ribosome arcs established by the extension -/

/-- The transition's `consume` dict exists and maps `p_free_ribosomes` to 1. -/
def hasConsumeRibo (t : Transition) : Prop :=
  ∃ l, t.consume = some l ∧ alookup "p_free_ribosomes" l = some 1

/-- The transition's `produce` dict exists and maps `p_free_ribosomes` to 1. -/
def hasProduceRibo (t : Transition) : Prop :=
  ∃ l, t.produce = some l ∧ alookup "p_free_ribosomes" l = some 1

theorem hasConsumeRibo_setConsumeRibo (t : Transition) :
    hasConsumeRibo (setConsumeRibo t) :=
  ⟨_, rfl, alookup_aupsert_self _ _ _⟩

theorem hasProduceRibo_setProduceRibo (t : Transition) :
    hasProduceRibo (setProduceRibo t) :=
  ⟨_, rfl, alookup_aupsert_self _ _ _⟩

theorem hasConsumeRibo_of_setConsumeRibo (t : Transition)
    (_h : hasConsumeRibo t) : hasConsumeRibo (setConsumeRibo t) :=
  hasConsumeRibo_setConsumeRibo t

theorem hasConsumeRibo_of_setProduceRibo (t : Transition)
    (h : hasConsumeRibo t) : hasConsumeRibo (setProduceRibo t) := h

theorem hasProduceRibo_of_setConsumeRibo (t : Transition)
    (h : hasProduceRibo t) : hasProduceRibo (setConsumeRibo t) := h

theorem hasProduceRibo_of_setProduceRibo (t : Transition)
    (_h : hasProduceRibo t) : hasProduceRibo (setProduceRibo t) :=
  hasProduceRibo_setProduceRibo t

/-- The transition bound to `n` exists and has the ribosome consume arc. -/
def consumeRiboAt (trs : List (String × Transition)) (n : String) : Prop :=
  ∃ t, alookup n trs = some t ∧ hasConsumeRibo t

/-- The transition bound to `n` exists and has the ribosome produce arc. -/
def produceRiboAt (trs : List (String × Transition)) (n : String) : Prop :=
  ∃ t, alookup n trs = some t ∧ hasProduceRibo t

theorem consumeRiboAt_applyAt (n k : String) (f : Transition → Transition)
    (hf : ∀ t, hasConsumeRibo t → hasConsumeRibo (f t))
    (trs : List (String × Transition)) (h : consumeRiboAt trs n) :
    consumeRiboAt (applyAt k f trs) n := by
  obtain ⟨t, ht, hc⟩ := h
  by_cases hn : n = k
  · subst hn
    exact ⟨f t, applyAt_lookup_self n f trs t ht, hf t hc⟩
  · exact ⟨t, by rw [applyAt_lookup_ne n k f trs hn]; exact ht, hc⟩

theorem produceRiboAt_applyAt (n k : String) (f : Transition → Transition)
    (hf : ∀ t, hasProduceRibo t → hasProduceRibo (f t))
    (trs : List (String × Transition)) (h : produceRiboAt trs n) :
    produceRiboAt (applyAt k f trs) n := by
  obtain ⟨t, ht, hc⟩ := h
  by_cases hn : n = k
  · subst hn
    exact ⟨f t, applyAt_lookup_self n f trs t ht, hf t hc⟩
  · exact ⟨t, by rw [applyAt_lookup_ne n k f trs hn]; exact ht, hc⟩

theorem consumeRiboAt_addChainRibo (n : String)
    (trs : List (String × Transition)) (c : ChainObj)
    (h : consumeRiboAt trs n) : consumeRiboAt (addChainRibo trs c) n :=
  consumeRiboAt_applyAt n _ setProduceRibo hasConsumeRibo_of_setProduceRibo _
    (consumeRiboAt_applyAt n _ setConsumeRibo hasConsumeRibo_of_setConsumeRibo trs h)

theorem produceRiboAt_addChainRibo (n : String)
    (trs : List (String × Transition)) (c : ChainObj)
    (h : produceRiboAt trs n) : produceRiboAt (addChainRibo trs c) n :=
  produceRiboAt_applyAt n _ setProduceRibo hasProduceRibo_of_setProduceRibo _
    (produceRiboAt_applyAt n _ setConsumeRibo hasProduceRibo_of_setConsumeRibo trs h)

theorem isSome_addChainRibo (n : String) (trs : List (String × Transition))
    (c : ChainObj) (h : (alookup n trs).isSome = true) :
    (alookup n (addChainRibo trs c)).isSome = true :=
  applyAt_isSome n _ setProduceRibo _ (applyAt_isSome n _ setConsumeRibo trs h)

theorem consumeRiboAt_addChainRibo_first (trs : List (String × Transition))
    (c : ChainObj)
    (h : (alookup (firstTransitionName c) trs).isSome = true) :
    consumeRiboAt (addChainRibo trs c) (firstTransitionName c) := by
  obtain ⟨t, ht⟩ := Option.isSome_iff_exists.mp h
  exact consumeRiboAt_applyAt _ _ setProduceRibo hasConsumeRibo_of_setProduceRibo _
    ⟨setConsumeRibo t, applyAt_lookup_self _ _ _ _ ht, hasConsumeRibo_setConsumeRibo t⟩

theorem produceRiboAt_addChainRibo_last (trs : List (String × Transition))
    (c : ChainObj)
    (h : (alookup (lastTransitionName c) trs).isSome = true) :
    produceRiboAt (addChainRibo trs c) (lastTransitionName c) := by
  have h2 := applyAt_isSome (lastTransitionName c) (firstTransitionName c)
    setConsumeRibo trs h
  obtain ⟨t, ht⟩ := Option.isSome_iff_exists.mp h2
  exact ⟨setProduceRibo t, applyAt_lookup_self _ _ _ _ ht,
    hasProduceRibo_setProduceRibo t⟩

theorem consumeRiboAt_foldl (n : String) (cs : List ChainObj)
    (trs : List (String × Transition)) (h : consumeRiboAt trs n) :
    consumeRiboAt (cs.foldl addChainRibo trs) n := by
  induction cs generalizing trs with
  | nil => exact h
  | cons c cs ih => exact ih _ (consumeRiboAt_addChainRibo n trs c h)

theorem produceRiboAt_foldl (n : String) (cs : List ChainObj)
    (trs : List (String × Transition)) (h : produceRiboAt trs n) :
    produceRiboAt (cs.foldl addChainRibo trs) n := by
  induction cs generalizing trs with
  | nil => exact h
  | cons c cs ih => exact ih _ (produceRiboAt_addChainRibo n trs c h)

theorem isSome_foldl_addChainRibo (n : String) (cs : List ChainObj)
    (trs : List (String × Transition)) (h : (alookup n trs).isSome = true) :
    (alookup n (cs.foldl addChainRibo trs)).isSome = true := by
  induction cs generalizing trs with
  | nil => exact h
  | cons c cs ih => exact ih _ (isSome_addChainRibo n trs c h)

theorem consumeRiboAt_foldl_of_mem (cs : List ChainObj)
    (trs : List (String × Transition)) (c : ChainObj) (hc : c ∈ cs)
    (h : (alookup (firstTransitionName c) trs).isSome = true) :
    consumeRiboAt (cs.foldl addChainRibo trs) (firstTransitionName c) := by
  induction cs generalizing trs with
  | nil => cases hc
  | cons c0 cs ih =>
    rcases List.mem_cons.mp hc with h0 | h0
    · subst h0
      exact consumeRiboAt_foldl _ cs _ (consumeRiboAt_addChainRibo_first trs c h)
    · exact ih _ h0 (isSome_addChainRibo _ trs c0 h)

theorem produceRiboAt_foldl_of_mem (cs : List ChainObj)
    (trs : List (String × Transition)) (c : ChainObj) (hc : c ∈ cs)
    (h : (alookup (lastTransitionName c) trs).isSome = true) :
    produceRiboAt (cs.foldl addChainRibo trs) (lastTransitionName c) := by
  induction cs generalizing trs with
  | nil => cases hc
  | cons c0 cs ih =>
    rcases List.mem_cons.mp hc with h0 | h0
    · subst h0
      exact produceRiboAt_foldl _ cs _ (produceRiboAt_addChainRibo_last trs c h)
    · exact ih _ h0 (isSome_addChainRibo _ trs c0 h)

theorem ribo_place_value (net : Network) (input : JsonInput) :
    alookup "p_free_ribosomes" (add_ribosome_functionality net input).places
      = some (getInitialRibosomes input) :=
  alookup_aupsert_self _ _ _

/-! ### Idempotence of the extension -/

theorem applyAt_of_none (k : String) (f : Transition → Transition)
    (trs : List (String × Transition)) (h : alookup k trs = none) :
    applyAt k f trs = trs := by
  simp [applyAt, h]

theorem setConsumeRibo_eq_of_has (t : Transition) (h : hasConsumeRibo t) :
    setConsumeRibo t = t := by
  obtain ⟨l, hl, h1⟩ := h
  cases t with
  | mk cns prd =>
    simp only at hl
    subst hl
    simp [setConsumeRibo, aupsert_eq_of_alookup _ _ _ h1]

theorem setProduceRibo_eq_of_has (t : Transition) (h : hasProduceRibo t) :
    setProduceRibo t = t := by
  obtain ⟨l, hl, h1⟩ := h
  cases t with
  | mk cns prd =>
    simp only at hl
    subst hl
    simp [setProduceRibo, aupsert_eq_of_alookup _ _ _ h1]

theorem applyAt_eq_of_fixed (k : String) (f : Transition → Transition)
    (trs : List (String × Transition))
    (h : ∀ t, alookup k trs = some t → f t = t) : applyAt k f trs = trs := by
  cases hl : alookup k trs with
  | none => exact applyAt_of_none k f trs hl
  | some t =>
    unfold applyAt
    rw [hl]
    show aupsert k (f t) trs = trs
    rw [h t hl]
    exact aupsert_eq_of_alookup k t trs hl

/-- After the extension has run, every transition found under this chain's
first (resp. last) transition name already carries the ribosome consume
(resp. produce) arc. -/
def doneChain (trs : List (String × Transition)) (c : ChainObj) : Prop :=
  (∀ t, alookup (firstTransitionName c) trs = some t → hasConsumeRibo t) ∧
  (∀ t, alookup (lastTransitionName c) trs = some t → hasProduceRibo t)

theorem addChainRibo_eq_of_done (trs : List (String × Transition)) (c : ChainObj)
    (h : doneChain trs c) : addChainRibo trs c = trs := by
  unfold addChainRibo
  rw [applyAt_eq_of_fixed _ _ _ (fun t ht => setConsumeRibo_eq_of_has t (h.1 t ht))]
  rw [applyAt_eq_of_fixed _ _ _ (fun t ht => setProduceRibo_eq_of_has t (h.2 t ht))]

theorem lookup_fixed_applyAt (n k : String) (f : Transition → Transition)
    (P : Transition → Prop) (hf : ∀ t, P t → P (f t))
    (trs : List (String × Transition))
    (h : ∀ t, alookup n trs = some t → P t) :
    ∀ t, alookup n (applyAt k f trs) = some t → P t := by
  intro t ht
  by_cases hn : n = k
  · subst hn
    cases hl : alookup n trs with
    | none =>
      rw [applyAt_of_none n f trs hl] at ht
      exact h t ht
    | some t0 =>
      rw [applyAt_lookup_self n f trs t0 hl] at ht
      cases ht
      exact hf t0 (h t0 hl)
  · rw [applyAt_lookup_ne n k f trs hn] at ht
    exact h t ht

theorem doneChain_addChainRibo (trs : List (String × Transition))
    (c c' : ChainObj) (h : doneChain trs c) :
    doneChain (addChainRibo trs c') c := by
  constructor
  · exact lookup_fixed_applyAt _ _ setProduceRibo hasConsumeRibo
      hasConsumeRibo_of_setProduceRibo _
      (lookup_fixed_applyAt _ _ setConsumeRibo hasConsumeRibo
        hasConsumeRibo_of_setConsumeRibo trs h.1)
  · exact lookup_fixed_applyAt _ _ setProduceRibo hasProduceRibo
      hasProduceRibo_of_setProduceRibo _
      (lookup_fixed_applyAt _ _ setConsumeRibo hasProduceRibo
        hasProduceRibo_of_setConsumeRibo trs h.2)

theorem doneChain_addChainRibo_self (trs : List (String × Transition))
    (c : ChainObj) : doneChain (addChainRibo trs c) c := by
  constructor
  · intro t ht
    by_cases h0 : (alookup (firstTransitionName c) trs).isSome = true
    · obtain ⟨t', ht', hc'⟩ := consumeRiboAt_addChainRibo_first trs c h0
      rw [ht] at ht'
      cases ht'
      exact hc'
    · have hnone : alookup (firstTransitionName c) trs = none := by
        cases hl : alookup (firstTransitionName c) trs with
        | none => rfl
        | some t0 => rw [hl] at h0; simp at h0
      have : alookup (firstTransitionName c) (addChainRibo trs c) = none := by
        unfold addChainRibo
        rw [applyAt_of_none _ _ _ hnone]
        by_cases he : firstTransitionName c = lastTransitionName c
        · rw [applyAt_of_none _ _ _ (he ▸ hnone)]
          exact hnone
        · rw [applyAt_lookup_ne _ _ _ _ he]
          exact hnone
      rw [this] at ht
      cases ht
  · intro t ht
    by_cases h0 : (alookup (lastTransitionName c) trs).isSome = true
    · obtain ⟨t', ht', hc'⟩ := produceRiboAt_addChainRibo_last trs c h0
      rw [ht] at ht'
      cases ht'
      exact hc'
    · have hnone : alookup (lastTransitionName c) trs = none := by
        cases hl : alookup (lastTransitionName c) trs with
        | none => rfl
        | some t0 => rw [hl] at h0; simp at h0
      have : alookup (lastTransitionName c) (addChainRibo trs c) = none := by
        unfold addChainRibo
        have h1 : alookup (lastTransitionName c)
            (applyAt (firstTransitionName c) setConsumeRibo trs) = none := by
          by_cases he : lastTransitionName c = firstTransitionName c
          · rw [applyAt_of_none _ _ _ (he ▸ hnone)]
            exact hnone
          · rw [applyAt_lookup_ne _ _ _ _ he]
            exact hnone
        rw [applyAt_of_none _ _ _ h1]
        exact h1
      rw [this] at ht
      cases ht

theorem doneChain_foldl (cs : List ChainObj) (trs : List (String × Transition))
    (c : ChainObj) (h : doneChain trs c) :
    doneChain (cs.foldl addChainRibo trs) c := by
  induction cs generalizing trs with
  | nil => exact h
  | cons c0 cs ih => exact ih _ (doneChain_addChainRibo trs c c0 h)

theorem doneChain_foldl_of_mem (cs : List ChainObj)
    (trs : List (String × Transition)) (c : ChainObj) (hc : c ∈ cs) :
    doneChain (cs.foldl addChainRibo trs) c := by
  induction cs generalizing trs with
  | nil => cases hc
  | cons c0 cs ih =>
    rcases List.mem_cons.mp hc with h0 | h0
    · subst h0
      exact doneChain_foldl cs _ c (doneChain_addChainRibo_self trs c)
    · exact ih _ h0

theorem foldl_addChainRibo_fixed (cs : List ChainObj)
    (trs : List (String × Transition)) (h : ∀ c ∈ cs, doneChain trs c) :
    cs.foldl addChainRibo trs = trs := by
  induction cs with
  | nil => rfl
  | cons c0 cs ih =>
    have h0 : addChainRibo trs c0 = trs :=
      addChainRibo_eq_of_done trs c0 (h c0 (List.mem_cons_self c0 cs))
    simp only [List.foldl_cons, h0]
    exact ih (fun c hc => h c (List.mem_cons_of_mem c0 hc))

theorem add_ribo_idem (net : Network) (input : JsonInput) :
    add_ribosome_functionality (add_ribosome_functionality net input) input
      = add_ribosome_functionality net input := by
  unfold add_ribosome_functionality
  simp only
  congr 1
  · exact aupsert_eq_of_alookup _ _ _ (alookup_aupsert_self _ _ _)
  · exact foldl_addChainRibo_fixed _ _
      (fun c hc => doneChain_foldl_of_mem _ _ c hc)

/-! ### Concrete example inputs used by witnesses and counterexamples -/

/-- A two-step chain named `chainA` (sequence length 2). -/
def exChainA : ChainObj :=
  { name := "chainA", sequence := "MA", polipeptide_name := "protX" }

/-- The base network the base compiler would produce for `exChainA` with
initial marking 2. -/
def exBase : Network :=
  { places := [("p_chainA_0", 2), ("p_chainA_1", 0), ("p_protX", 0)],
    transitions :=
      [("t_chainA_t1", { consume := some [("p_chainA_0", 1)],
                         produce := some [("p_chainA_1", 1)] }),
       ("t_chainA_t2", { consume := some [("p_chainA_1", 1)],
                         produce := some [("p_protX", 1)] })] }

/-- Input holding `exChainA` with `initial_ribosomes = 3`. -/
def exInput3 : JsonInput :=
  { chains := [exChainA],
    simulation_parameters :=
      { initial_chains_marking := 2,
        ribosome_parameters := some { initial_ribosomes := some 3 } } }

/-! ### Claim theorems -/

/-- C1: for every base network containing, for each chain `c`, the transitions
`t_<c>_t1` and `t_<c>_tL`, and ribosome parameters with `initial_ribosomes = r`,
the extension returns a network whose place `p_free_ribosomes` is marked `r`,
where the chain's first transition's consume map contains `p_free_ribosomes`
with weight 1 and its last transition's produce map contains `p_free_ribosomes`
with weight 1. -/
theorem c1_resource_extension_arcs (net : Network) (input : JsonInput)
    (c : ChainObj) (rp : RibosomeParams) (r : Int)
    (hc : c ∈ input.chains)
    (hrp : input.simulation_parameters.ribosome_parameters = some rp)
    (hr : rp.initial_ribosomes = some r)
    (hfirst : (alookup (firstTransitionName c) net.transitions).isSome = true)
    (hlast : (alookup (lastTransitionName c) net.transitions).isSome = true) :
    alookup "p_free_ribosomes" (add_ribosome_functionality net input).places
        = some r ∧
    consumeRiboAt (add_ribosome_functionality net input).transitions
        (firstTransitionName c) ∧
    produceRiboAt (add_ribosome_functionality net input).transitions
        (lastTransitionName c) := by
  refine ⟨?_, ?_, ?_⟩
  · rw [ribo_place_value]
    simp [getInitialRibosomes, hrp, hr]
  · exact consumeRiboAt_foldl_of_mem _ _ c hc hfirst
  · exact produceRiboAt_foldl_of_mem _ _ c hc hlast

/-- Witness for C1 at the concrete two-step chain with `initial_ribosomes = 3`. -/
theorem c1_resource_extension_arcs_witness :
    alookup "p_free_ribosomes" (add_ribosome_functionality exBase exInput3).places
        = some 3 ∧
    consumeRiboAt (add_ribosome_functionality exBase exInput3).transitions
        (firstTransitionName exChainA) ∧
    produceRiboAt (add_ribosome_functionality exBase exInput3).transitions
        (lastTransitionName exChainA) :=
  c1_resource_extension_arcs exBase exInput3 exChainA
    { initial_ribosomes := some 3 } 3 (by decide) (by decide) (by decide)
    (by decide) (by decide)

/-- C9: the extension is idempotent — applying `add_ribosome_functionality`
twice with the same json input yields the same network as applying it once,
because the ribosome arc weights are assigned the constant 1 (overwritten, not
accumulated) and the place marking is re-assigned the same value. -/
theorem c9_extension_idempotent (net : Network) (input : JsonInput) :
    add_ribosome_functionality (add_ribosome_functionality net input) input
      = add_ribosome_functionality net input :=
  add_ribo_idem net input

/-- The weight the transition named `tname` consumes from place `pname`
(`none` when the transition or the arc is absent). -/
def consumeWeight (net : Network) (tname pname : String) : Option Int :=
  match alookup tname net.transitions with
  | none => none
  | some t => alookup pname (t.consume.getD [])

/-- The weight the transition named `tname` produces into place `pname`. -/
def produceWeight (net : Network) (tname pname : String) : Option Int :=
  match alookup tname net.transitions with
  | none => none
  | some t => alookup pname (t.produce.getD [])

/-- Input holding `exChainA` with `ribosome_parameters` absent entirely. -/
def exInputNoRibo : JsonInput :=
  { chains := [exChainA],
    simulation_parameters :=
      { initial_chains_marking := 2, ribosome_parameters := none } }

/-- Input holding `exChainA` with a negative `initial_ribosomes`. -/
def exInputNeg : JsonInput :=
  { chains := [exChainA],
    simulation_parameters :=
      { initial_chains_marking := 2,
        ribosome_parameters := some { initial_ribosomes := some (-1) } } }

/-- A three-step chain named `chainB`, absent from `exBase`. -/
def exChainB : ChainObj :=
  { name := "chainB", sequence := "MAL", polipeptide_name := "protY" }

/-- Input whose only chain (`chainB`) has no transitions in `exBase`. -/
def exInputB : JsonInput :=
  { chains := [exChainB],
    simulation_parameters :=
      { initial_chains_marking := 2,
        ribosome_parameters := some { initial_ribosomes := some 3 } } }

/-- C2 counterexample: the extension is invoked with chain `chainB` whose
expected transitions `t_chainB_t1` and `t_chainB_t3` are absent from the base
network, yet no error is raised and a full network is returned — the code
silently skips the missing transitions instead of failing with
`MissingTransitionError` (the code has no error path at all). -/
theorem c2_counterexample_missing_chain_returns_network :
    add_ribosome_functionality exBase exInputB
      = { places := [("p_chainA_0", 2), ("p_chainA_1", 0), ("p_protX", 0),
                     ("p_free_ribosomes", 3)],
          transitions :=
            [("t_chainA_t1", { consume := some [("p_chainA_0", 1)],
                               produce := some [("p_chainA_1", 1)] }),
             ("t_chainA_t2", { consume := some [("p_chainA_1", 1)],
                               produce := some [("p_protX", 1)] })] } := by
  decide

/-- C2 amended: when every chain's expected first and last transition names
are absent from the base network's transitions mapping, the extension does not
fail: it returns the network with the `p_free_ribosomes` place added and the
transitions mapping completely unchanged. -/
theorem c2_amended_missing_transitions_silently_skipped (net : Network)
    (input : JsonInput)
    (h : ∀ c ∈ input.chains,
      alookup (firstTransitionName c) net.transitions = none ∧
      alookup (lastTransitionName c) net.transitions = none) :
    add_ribosome_functionality net input
      = { places := aupsert "p_free_ribosomes" (getInitialRibosomes input)
            net.places,
          transitions := net.transitions } := by
  unfold add_ribosome_functionality
  congr 1
  have key : ∀ cs : List ChainObj,
      (∀ c ∈ cs, alookup (firstTransitionName c) net.transitions = none ∧
        alookup (lastTransitionName c) net.transitions = none) →
      List.foldl addChainRibo net.transitions cs = net.transitions := by
    intro cs
    induction cs with
    | nil => intro _; rfl
    | cons c0 cs ih =>
      intro hcs
      have h0 := hcs c0 (List.mem_cons_self c0 cs)
      have hstep : addChainRibo net.transitions c0 = net.transitions := by
        unfold addChainRibo
        rw [applyAt_of_none _ _ _ h0.1, applyAt_of_none _ _ _ h0.2]
      simp only [List.foldl_cons, hstep]
      exact ih (fun c hc => hcs c (List.mem_cons_of_mem c0 hc))
  exact key input.chains h

/-- Witness for the amended C2 at the concrete mismatched input. -/
theorem c2_amended_witness :
    add_ribosome_functionality exBase exInputB
      = { places := aupsert "p_free_ribosomes" (getInitialRibosomes exInputB)
            exBase.places,
          transitions := exBase.transitions } :=
  c2_amended_missing_transitions_silently_skipped exBase exInputB (by decide)

/-- C3 counterexample: re-applying the extension to its own output leaves the
ribosome arc weights at 1 — the claimed additive merge to weight 2 does not
happen, because the code assigns the constant 1 instead of incrementing. -/
theorem c3_counterexample_reapplication_not_additive :
    consumeWeight (add_ribosome_functionality
        (add_ribosome_functionality exBase exInput3) exInput3)
        "t_chainA_t1" "p_free_ribosomes" = some 1 ∧
    consumeWeight (add_ribosome_functionality
        (add_ribosome_functionality exBase exInput3) exInput3)
        "t_chainA_t1" "p_free_ribosomes" ≠ some 2 ∧
    produceWeight (add_ribosome_functionality
        (add_ribosome_functionality exBase exInput3) exInput3)
        "t_chainA_t2" "p_free_ribosomes" = some 1 ∧
    produceWeight (add_ribosome_functionality
        (add_ribosome_functionality exBase exInput3) exInput3)
        "t_chainA_t2" "p_free_ribosomes" ≠ some 2 := by
  decide

/-- C3 amended: re-application overwrites the ribosome arc weights with the
constant 1 instead of merging additively: after applying the extension twice,
each chain's first transition still consumes `p_free_ribosomes` with weight 1
and its last transition still produces it with weight 1 (never 2). -/
theorem c3_amended_reapplication_overwrites (net : Network) (input : JsonInput)
    (c : ChainObj) (hc : c ∈ input.chains)
    (hfirst : (alookup (firstTransitionName c) net.transitions).isSome = true)
    (hlast : (alookup (lastTransitionName c) net.transitions).isSome = true) :
    consumeRiboAt (add_ribosome_functionality
        (add_ribosome_functionality net input) input).transitions
        (firstTransitionName c) ∧
    produceRiboAt (add_ribosome_functionality
        (add_ribosome_functionality net input) input).transitions
        (lastTransitionName c) := by
  rw [add_ribo_idem]
  exact ⟨consumeRiboAt_foldl_of_mem _ _ c hc hfirst,
    produceRiboAt_foldl_of_mem _ _ c hc hlast⟩

/-- Witness for the amended C3 at the concrete two-step chain. -/
theorem c3_amended_witness :
    consumeRiboAt (add_ribosome_functionality
        (add_ribosome_functionality exBase exInput3) exInput3).transitions
        (firstTransitionName exChainA) ∧
    produceRiboAt (add_ribosome_functionality
        (add_ribosome_functionality exBase exInput3) exInput3).transitions
        (lastTransitionName exChainA) :=
  c3_amended_reapplication_overwrites exBase exInput3 exChainA (by decide)
    (by decide) (by decide)

/-- C4 counterexample: with `ribosome_parameters` omitted and no caller
default configured, the extension does not fail fast — it returns a full
network whose resource place is seeded with the hardcoded magic constant 50. -/
theorem c4_counterexample_default_is_invented :
    add_ribosome_functionality exBase exInputNoRibo
      = { places := [("p_chainA_0", 2), ("p_chainA_1", 0), ("p_protX", 0),
                     ("p_free_ribosomes", 50)],
          transitions :=
            [("t_chainA_t1",
               { consume := some [("p_chainA_0", 1), ("p_free_ribosomes", 1)],
                 produce := some [("p_chainA_1", 1)] }),
             ("t_chainA_t2",
               { consume := some [("p_chainA_1", 1)],
                 produce := some [("p_protX", 1), ("p_free_ribosomes", 1)] })] } := by
  decide

/-- C4 amended: when the ribosome parameters (or the `initial_ribosomes` key)
are omitted, the extension does not fail: it invents the hardcoded inline
default 50 and seeds `p_free_ribosomes` with it. -/
theorem c4_amended_hardcoded_default_50 (net : Network) (input : JsonInput)
    (hmiss : input.simulation_parameters.ribosome_parameters = none ∨
      ∃ rp, input.simulation_parameters.ribosome_parameters = some rp ∧
        rp.initial_ribosomes = none) :
    alookup "p_free_ribosomes" (add_ribosome_functionality net input).places
      = some 50 := by
  rw [ribo_place_value]
  rcases hmiss with h | ⟨rp, h1, h2⟩
  · simp [getInitialRibosomes, h]
  · simp [getInitialRibosomes, h1, h2]

/-- Witness for the amended C4 at the concrete input lacking
`ribosome_parameters`. -/
theorem c4_amended_witness :
    alookup "p_free_ribosomes"
      (add_ribosome_functionality exBase exInputNoRibo).places = some 50 :=
  c4_amended_hardcoded_default_50 exBase exInputNoRibo (Or.inl rfl)

/-- C5 counterexample: with `initial_ribosomes = -1` the extension raises no
`InvalidResourceError` — it returns a full network whose resource place holds
the negative marking `-1`. -/
theorem c5_counterexample_negative_accepted :
    add_ribosome_functionality exBase exInputNeg
      = { places := [("p_chainA_0", 2), ("p_chainA_1", 0), ("p_protX", 0),
                     ("p_free_ribosomes", -1)],
          transitions :=
            [("t_chainA_t1",
               { consume := some [("p_chainA_0", 1), ("p_free_ribosomes", 1)],
                 produce := some [("p_chainA_1", 1)] }),
             ("t_chainA_t2",
               { consume := some [("p_chainA_1", 1)],
                 produce := some [("p_protX", 1), ("p_free_ribosomes", 1)] })] } := by
  decide

/-- C5 amended: a negative `initial_ribosomes` is accepted without any
validation: the extension returns a network whose `p_free_ribosomes` place is
seeded with the negative value itself. -/
theorem c5_amended_negative_value_stored (net : Network) (input : JsonInput)
    (rp : RibosomeParams) (r : Int) (_hneg : r < 0)
    (hrp : input.simulation_parameters.ribosome_parameters = some rp)
    (hr : rp.initial_ribosomes = some r) :
    alookup "p_free_ribosomes" (add_ribosome_functionality net input).places
      = some r := by
  rw [ribo_place_value]
  simp [getInitialRibosomes, hrp, hr]

/-- Witness for the amended C5 at `initial_ribosomes = -1`. -/
theorem c5_amended_witness :
    alookup "p_free_ribosomes"
      (add_ribosome_functionality exBase exInputNeg).places = some (-1) :=
  c5_amended_negative_value_stored exBase exInputNeg
    { initial_ribosomes := some (-1) } (-1) (by decide) rfl rfl

/-- C10: when `ribosome_parameters` (or its `initial_ribosomes` key) is
absent, the extension still returns a network and seeds `p_free_ribosomes`
with the hardcoded constant 50; and a pre-existing `p_free_ribosomes` place in
the base network has its marking unconditionally overwritten with the
configured-or-default value (here the default 50, whatever marking `v` it had
before). -/
theorem c10_default_50_and_overwrite (net : Network) (input : JsonInput)
    (v : Int)
    (hmiss : input.simulation_parameters.ribosome_parameters = none ∨
      ∃ rp, input.simulation_parameters.ribosome_parameters = some rp ∧
        rp.initial_ribosomes = none)
    (_hpre : alookup "p_free_ribosomes" net.places = some v) :
    alookup "p_free_ribosomes" (add_ribosome_functionality net input).places
        = some 50 ∧ getInitialRibosomes input = 50 := by
  have h50 : getInitialRibosomes input = 50 := by
    rcases hmiss with h | ⟨rp, h1, h2⟩
    · simp [getInitialRibosomes, h]
    · simp [getInitialRibosomes, h1, h2]
  exact ⟨by rw [ribo_place_value, h50], h50⟩

/-- A base network that already carries a `p_free_ribosomes` place marked 7. -/
def exBasePre : Network :=
  { places := [("p_chainA_0", 2), ("p_free_ribosomes", 7)],
    transitions :=
      [("t_chainA_t1", { consume := some [("p_chainA_0", 1)],
                         produce := none })] }

/-- Witness for C10: the pre-existing marking 7 is overwritten with the
default 50 when the ribosome parameters are absent. -/
theorem c10_default_50_and_overwrite_witness :
    alookup "p_free_ribosomes"
        (add_ribosome_functionality exBasePre exInputNoRibo).places = some 50 ∧
    getInitialRibosomes exInputNoRibo = 50 :=
  c10_default_50_and_overwrite exBasePre exInputNoRibo 7 (Or.inl rfl) (by decide)

/-! ### Frame lemmas: which transitions the extension can touch -/

theorem addChainRibo_lookup_ne (n : String) (trs : List (String × Transition))
    (c : ChainObj) (h1 : n ≠ firstTransitionName c)
    (h2 : n ≠ lastTransitionName c) :
    alookup n (addChainRibo trs c) = alookup n trs := by
  unfold addChainRibo
  rw [applyAt_lookup_ne _ _ _ _ h2, applyAt_lookup_ne _ _ _ _ h1]

theorem foldl_addChainRibo_lookup_ne (n : String) (cs : List ChainObj)
    (trs : List (String × Transition))
    (h : ∀ c ∈ cs, n ≠ firstTransitionName c ∧ n ≠ lastTransitionName c) :
    alookup n (cs.foldl addChainRibo trs) = alookup n trs := by
  induction cs generalizing trs with
  | nil => rfl
  | cons c0 cs ih =>
    have h0 := h c0 (List.mem_cons_self c0 cs)
    simp only [List.foldl_cons]
    rw [ih _ (fun c hc => h c (List.mem_cons_of_mem c0 hc))]
    exact addChainRibo_lookup_ne n trs c0 h0.1 h0.2

theorem mem_addChainRibo (p : String × Transition)
    (trs : List (String × Transition)) (c : ChainObj)
    (h : p ∈ addChainRibo trs c) :
    p ∈ trs ∨ p.1 = firstTransitionName c ∨ p.1 = lastTransitionName c := by
  unfold addChainRibo at h
  rcases mem_applyAt p _ _ _ h with h1 | ⟨t, _, hp⟩
  · rcases mem_applyAt p _ _ _ h1 with h2 | ⟨t, _, hp⟩
    · exact Or.inl h2
    · rw [hp]
      exact Or.inr (Or.inl rfl)
  · rw [hp]
    exact Or.inr (Or.inr rfl)

theorem mem_foldl_addChainRibo (p : String × Transition) (cs : List ChainObj)
    (trs : List (String × Transition)) (h : p ∈ cs.foldl addChainRibo trs) :
    p ∈ trs ∨ ∃ c ∈ cs,
      p.1 = firstTransitionName c ∨ p.1 = lastTransitionName c := by
  induction cs generalizing trs with
  | nil => exact Or.inl h
  | cons c0 cs ih =>
    rcases ih _ h with h1 | ⟨c, hc, hn⟩
    · rcases mem_addChainRibo p trs c0 h1 with h2 | h2
      · exact Or.inl h2
      · exact Or.inr ⟨c0, List.mem_cons_self c0 cs, h2⟩
    · exact Or.inr ⟨c, List.mem_cons_of_mem c0 hc, hn⟩

/-- Whether a transition references `p_free_ribosomes` in its consume or
produce map. -/
def transRefsRibo (t : Transition) : Bool :=
  (t.consume.getD []).any (fun q => q.1 = "p_free_ribosomes") ||
  (t.produce.getD []).any (fun q => q.1 = "p_free_ribosomes")

/-- C6: on a valid base network — one with no `p_free_ribosomes` place and no
transition referencing it — the extension adds exactly one place, leaves every
place other than `p_free_ribosomes` unchanged, leaves every transition whose
name is not some chain's first or last transition name byte-for-byte
identical, and any transition of the result that references the resource place
is a chain's first or last transition (so intra-chain transitions at positions
2..L-1 never reference it). -/
theorem c6_extension_frame (net : Network) (input : JsonInput)
    (hfresh : alookup "p_free_ribosomes" net.places = none)
    (hnoref : ∀ p ∈ net.transitions, transRefsRibo p.2 = false) :
    (add_ribosome_functionality net input).places.length
        = net.places.length + 1 ∧
    (∀ k, k ≠ "p_free_ribosomes" →
      alookup k (add_ribosome_functionality net input).places
        = alookup k net.places) ∧
    (∀ n, (∀ c ∈ input.chains,
        n ≠ firstTransitionName c ∧ n ≠ lastTransitionName c) →
      alookup n (add_ribosome_functionality net input).transitions
        = alookup n net.transitions) ∧
    (∀ p ∈ (add_ribosome_functionality net input).transitions,
      transRefsRibo p.2 = true →
      ∃ c ∈ input.chains,
        p.1 = firstTransitionName c ∨ p.1 = lastTransitionName c) := by
  refine ⟨?_, ?_, ?_, ?_⟩
  · show (aupsert "p_free_ribosomes" (getInitialRibosomes input)
      net.places).length = net.places.length + 1
    rw [aupsert_of_alookup_none _ _ _ hfresh]
    simp
  · intro k hk
    exact alookup_aupsert_ne k _ _ _ hk
  · intro n hn
    exact foldl_addChainRibo_lookup_ne n _ _ hn
  · intro p hp href
    rcases mem_foldl_addChainRibo p _ _ hp with h1 | h1
    · rw [hnoref p h1] at href
      cases href
    · exact h1

/-- Witness for C6 at the concrete valid base network. -/
theorem c6_extension_frame_witness :
    (add_ribosome_functionality exBase exInput3).places.length
        = exBase.places.length + 1 ∧
    (∀ k, k ≠ "p_free_ribosomes" →
      alookup k (add_ribosome_functionality exBase exInput3).places
        = alookup k exBase.places) ∧
    (∀ n, (∀ c ∈ exInput3.chains,
        n ≠ firstTransitionName c ∧ n ≠ lastTransitionName c) →
      alookup n (add_ribosome_functionality exBase exInput3).transitions
        = alookup n exBase.transitions) ∧
    (∀ p ∈ (add_ribosome_functionality exBase exInput3).transitions,
      transRefsRibo p.2 = true →
      ∃ c ∈ exInput3.chains,
        p.1 = firstTransitionName c ∨ p.1 = lastTransitionName c) :=
  c6_extension_frame exBase exInput3 (by decide) (by decide)

/-! ### Referential integrity -/

/-- Every place referenced by any transition's consume or produce map exists
in the network's `places` mapping. -/
def refsOk (net : Network) : Prop :=
  ∀ p ∈ net.transitions,
    ∀ q ∈ (p.2.consume.getD [] ++ p.2.produce.getD []),
      (alookup q.1 net.places).isSome = true

/-- Every place the transition references exists in `places`. -/
def transPlacesOk (places : List (String × Int)) (t : Transition) : Prop :=
  ∀ q ∈ (t.consume.getD [] ++ t.produce.getD []),
    (alookup q.1 places).isSome = true

theorem transPlacesOk_setConsumeRibo (places : List (String × Int))
    (t : Transition)
    (hP : (alookup "p_free_ribosomes" places).isSome = true)
    (h : transPlacesOk places t) :
    transPlacesOk places (setConsumeRibo t) := by
  intro q hq
  simp only [setConsumeRibo, Option.getD_some] at hq
  rcases List.mem_append.mp hq with h1 | h1
  · rcases mem_aupsert q _ _ _ h1 with h2 | h2
    · rw [h2]
      exact hP
    · exact h q (List.mem_append.mpr (Or.inl h2))
  · exact h q (List.mem_append.mpr (Or.inr h1))

theorem transPlacesOk_setProduceRibo (places : List (String × Int))
    (t : Transition)
    (hP : (alookup "p_free_ribosomes" places).isSome = true)
    (h : transPlacesOk places t) :
    transPlacesOk places (setProduceRibo t) := by
  intro q hq
  simp only [setProduceRibo, Option.getD_some] at hq
  rcases List.mem_append.mp hq with h1 | h1
  · exact h q (List.mem_append.mpr (Or.inl h1))
  · rcases mem_aupsert q _ _ _ h1 with h2 | h2
    · rw [h2]
      exact hP
    · exact h q (List.mem_append.mpr (Or.inr h2))

theorem transPlacesOk_applyAt (places : List (String × Int)) (k : String)
    (f : Transition → Transition)
    (hf : ∀ t, transPlacesOk places t → transPlacesOk places (f t))
    (trs : List (String × Transition))
    (h : ∀ p ∈ trs, transPlacesOk places p.2) :
    ∀ p ∈ applyAt k f trs, transPlacesOk places p.2 := by
  intro p hp
  rcases mem_applyAt p k f trs hp with h1 | ⟨t, ht, hp2⟩
  · exact h p h1
  · rw [hp2]
    exact hf t (h (k, t) (alookup_mem k t trs ht))

theorem transPlacesOk_foldl (places : List (String × Int))
    (hP : (alookup "p_free_ribosomes" places).isSome = true)
    (cs : List ChainObj) (trs : List (String × Transition))
    (h : ∀ p ∈ trs, transPlacesOk places p.2) :
    ∀ p ∈ cs.foldl addChainRibo trs, transPlacesOk places p.2 := by
  induction cs generalizing trs with
  | nil => exact h
  | cons c0 cs ih =>
    refine ih _ ?_
    exact transPlacesOk_applyAt places _ setProduceRibo
      (fun t htt => transPlacesOk_setProduceRibo places t hP htt) _
      (transPlacesOk_applyAt places _ setConsumeRibo
        (fun t htt => transPlacesOk_setConsumeRibo places t hP htt) trs h)

/-- C7: referential integrity is preserved by the extension — if every place
referenced by any transition of the input network exists in its `places`
mapping, the same holds for the output network (in particular the new
`p_free_ribosomes` arcs point at the place the extension itself added). -/
theorem c7_referential_integrity_preserved (net : Network) (input : JsonInput)
    (h : refsOk net) : refsOk (add_ribosome_functionality net input) := by
  intro p hp
  have hP : (alookup "p_free_ribosomes"
      (add_ribosome_functionality net input).places).isSome = true := by
    rw [ribo_place_value]
    rfl
  have hlift : ∀ p2 ∈ net.transitions,
      transPlacesOk (add_ribosome_functionality net input).places p2.2 := by
    intro p2 hp2 q hq
    exact isSome_alookup_aupsert _ _ _ _ (h p2 hp2 q hq)
  exact transPlacesOk_foldl _ hP input.chains net.transitions hlift p hp

/-- Witness for C7 at the concrete valid base network. -/
theorem c7_referential_integrity_witness :
    refsOk (add_ribosome_functionality exBase exInput3) :=
  c7_referential_integrity_preserved exBase exInput3
    (by simp only [refsOk]; decide)

/-! ### The base Chain Network Compiler, modelled from the spec -/

theorem alookup_eq_none (k : String) (l : List (String × α))
    (h : ∀ q ∈ l, q.1 ≠ k) : alookup k l = none := by
  induction l with
  | nil => rfl
  | cons q l ih =>
    have hq := h q (List.mem_cons_self q l)
    simp only [alookup, if_neg hq]
    exact ih (fun q2 hq2 => h q2 (List.mem_cons_of_mem q hq2))

/-- Modelled from the spec: the base compiler (`mRNA2PNetAdapter` in
`mrna2pnet.py`) is absent from `src/`; only its subclass is present.  §4.1
names the intra-chain positional places by chain name and position index. -/
def positionPlaceName (c : ChainObj) (i : Nat) : String :=
  "p_" ++ c.name ++ "_" ++ toString i

/-- Modelled from the spec: one shared product place per distinct product
name (`polipeptide_name` in the repository's inputs). -/
def productPlaceName (c : ChainObj) : String :=
  "p_" ++ c.polipeptide_name

/-- Modelled from the spec: the elongation-step transition names `t_<c>_t<i>`
for `i = 1..L` — the naming convention the extension's lookups rely on. -/
def stepTransitionName (c : ChainObj) (i : Nat) : String :=
  "t_" ++ c.name ++ "_t" ++ toString i

/-- Modelled from the spec: the positional places of one chain of length `L`,
positions `0..L-1`; position 0 is seeded with the initial marking, the others
with 0 (the position-L place is replaced by the product place, keeping the
§3 invariant of L transitions and L+1 places per chain). -/
def chainPlaces (m : Int) (c : ChainObj) : List (String × Int) :=
  (List.range c.sequence.length).map
    (fun i => (positionPlaceName c i, if i = 0 then m else 0))

/-- Modelled from the spec: the `L` elongation transitions of one chain; step
`i` consumes 1 from position `i-1` and produces 1 into position `i`, except
the final step which produces into the product place instead. -/
def chainTransitions (c : ChainObj) : List (String × Transition) :=
  (List.range c.sequence.length).map
    (fun j =>
      (stepTransitionName c (j + 1),
        { consume := some [(positionPlaceName c j, 1)],
          produce := some [(if j + 1 = c.sequence.length
              then productPlaceName c
              else positionPlaceName c (j + 1), 1)] }))

/-- Modelled from the spec: the product place is created once and reused when
several chains share a product name. -/
def addProductPlace (places : List (String × Int)) (c : ChainObj) :
    List (String × Int) :=
  if (alookup (productPlaceName c) places).isSome then places
  else places ++ [(productPlaceName c, 0)]

/-- Modelled from the spec: the pure base compilation
`compile(chains, params) -> Network` of §4.1 — positional places for every
chain, one shared product place per product name, and one transition per
elongation step. -/
def compile (chains : List ChainObj) (initial_chains_marking : Int) : Network :=
  { places := chains.foldl addProductPlace
      (chains.foldl
        (fun acc c => acc ++ chainPlaces initial_chains_marking c) []),
    transitions := chains.foldl (fun acc c => acc ++ chainTransitions c) [] }

theorem compile_single (c : ChainObj) (m : Int)
    (hprod : alookup (productPlaceName c) (chainPlaces m c) = none) :
    compile [c] m
      = { places := chainPlaces m c ++ [(productPlaceName c, 0)],
          transitions := chainTransitions c } := by
  simp [compile, addProductPlace, hprod]

/-- C8: spec-modelled — for every chain of length `L ≥ 1` with initial
marking `M ≥ 0` (and spec-§3 name uniqueness: the product place name clashes
with no positional place name and no generated name is `p_free_ribosomes`),
the base compiler alone produces exactly `L` transitions and `L+1` places for
that chain, the position-0 place is marked `M`, every other place is marked 0,
and no resource-pool place exists. -/
theorem c8_base_compiler_structure (c : ChainObj) (m : Int)
    (hL : 1 ≤ c.sequence.length) (_hm : 0 ≤ m)
    (hprod : alookup (productPlaceName c) (chainPlaces m c) = none)
    (hfree1 : productPlaceName c ≠ "p_free_ribosomes")
    (hfree2 : ∀ i ∈ List.range c.sequence.length,
      positionPlaceName c i ≠ "p_free_ribosomes") :
    (compile [c] m).transitions.length = c.sequence.length ∧
    (compile [c] m).places.length = c.sequence.length + 1 ∧
    alookup (positionPlaceName c 0) (compile [c] m).places = some m ∧
    (∀ q ∈ (compile [c] m).places, q.1 ≠ positionPlaceName c 0 → q.2 = 0) ∧
    alookup "p_free_ribosomes" (compile [c] m).places = none := by
  rw [compile_single c m hprod]
  refine ⟨?_, ?_, ?_, ?_, ?_⟩
  · simp [chainTransitions]
  · simp [chainPlaces]
  · obtain ⟨L', hL'⟩ : ∃ L', c.sequence.length = L' + 1 :=
      ⟨c.sequence.length - 1, (Nat.succ_pred_eq_of_pos hL).symm⟩
    simp only [chainPlaces, hL', List.range_succ_eq_map, List.map_cons,
      List.cons_append]
    simp [alookup]
  · intro q hq hq0
    rcases List.mem_append.mp hq with h1 | h1
    · obtain ⟨i, _, hqi⟩ := List.mem_map.mp h1
      by_cases hi : i = 0
      · subst hi
        rw [← hqi] at hq0
        simp at hq0
      · rw [← hqi]
        simp [hi]
    · simp at h1
      rw [h1]
  · apply alookup_eq_none
    intro q hq
    rcases List.mem_append.mp hq with h1 | h1
    · obtain ⟨i, hi, hqi⟩ := List.mem_map.mp h1
      rw [← hqi]
      exact hfree2 i hi
    · simp at h1
      rw [h1]
      exact hfree1

/-- A five-step chain matching the spec's concrete scenario. -/
def exChain5 : ChainObj :=
  { name := "chainA", sequence := "MALWM", polipeptide_name := "preinsulin" }

/-- Witness for C8 at the concrete five-step chain with marking 2. -/
theorem c8_base_compiler_structure_witness :
    (compile [exChain5] 2).transitions.length = exChain5.sequence.length ∧
    (compile [exChain5] 2).places.length = exChain5.sequence.length + 1 ∧
    alookup (positionPlaceName exChain5 0) (compile [exChain5] 2).places
        = some 2 ∧
    (∀ q ∈ (compile [exChain5] 2).places,
      q.1 ≠ positionPlaceName exChain5 0 → q.2 = 0) ∧
    alookup "p_free_ribosomes" (compile [exChain5] 2).places = none :=
  c8_base_compiler_structure exChain5 2 (by decide) (by decide) (by decide)
    (by decide) (by decide)
